/-
Verification of the iTAV forecasting engine against its specification.

The definitions below are a shallow embedding of the Python source
(forecasting/services/forecast_engine.py together with the schemas in
forecasting/schemas/forecast.py, the configuration in forecasting/core/config.py
and the cache layer in forecasting/core/cache.py).  Exact field arithmetic
(over a linear ordered field K, instantiated at the rationals or the reals)
stands in for IEEE doubles; `math.exp` and the random draws of
`np.random.normal` are explicit parameters, since they are external to the
repository's code.
-/
import Mathlib

/-- Python `int(x)` conversion applied to a float: truncation toward zero. -/
def pyInt (x : ℚ) : ℤ := if 0 ≤ x then ⌊x⌋ else -⌊-x⌋

/-- Largest finite IEEE double (`sys.float_info.max`).  Python float
arithmetic raises `OverflowError` whenever a result would exceed it. -/
def pythonFloatMax : ℚ := 2 ^ 1024 - 2 ^ 971

/-- Model of `ErlangCStaffingModel._erlang_c_probability(agents, traffic)`, in
exact field arithmetic.  The Python body computes
`numerator = (traffic ** agents / math.factorial(agents)) * (agents / (agents - traffic))`,
`denominator = sum(traffic ** k / math.factorial(k) for k in range(agents)) + numerator`,
and returns `numerator / denominator`; the list sum below is the generator sum.
The source wraps this in `try/except (OverflowError, ZeroDivisionError)`
returning `0.0`: exact arithmetic never overflows, and at the
`agents = traffic` boundary Lean's `x / 0 = 0` convention returns `0`, the same
value as the `ZeroDivisionError` handler. -/
def erlang_c_probability {K : Type} [LinearOrderedField K] (agents : ℕ) (traffic : K) : K :=
  let numerator : K :=
    traffic ^ agents / (Nat.factorial agents : K) * ((agents : K) / ((agents : K) - traffic))
  let denominator : K :=
    ((List.range agents).map (fun k => traffic ^ k / (Nat.factorial k : K))).sum + numerator
  numerator / denominator

/-- First intermediate value evaluated by `_erlang_c_probability`:
`traffic ** agents` (Python evaluates the power before dividing by the
factorial).  When it exceeds `pythonFloatMax` the float computation raises
`OverflowError` and the handler returns `0.0`. -/
def erlang_c_first_term (agents : ℕ) (traffic : ℚ) : ℚ := traffic ^ agents

/-- The bounded search loop of `calculate_required_agents`
(`for _ in range(max_iterations)`).  `e` models `math.exp`; `lastProb` is the
Python local `prob_within_target`, absent (`none`) until the first candidate
agent count strictly above the traffic intensity has been evaluated.  On fuel
exhaustion the current agent count is returned together with the last
evaluated probability, mirroring
`achieved_service_level = prob_within_target if 'prob_within_target' in locals() else 0.0`. -/
def find_agents_loop {K : Type} [LinearOrderedField K] (e : K → K)
    (traffic tsl tat aht : K) : ℕ → ℕ → Option K → ℕ × Option K
  | 0, agents, lastProb => (agents, lastProb)
  | fuel + 1, agents, lastProb =>
    if (agents : K) ≤ traffic then
      find_agents_loop e traffic tsl tat aht fuel (agents + 1) lastProb
    else
      let p : K :=
        1 - erlang_c_probability agents traffic * e (-((agents : K) - traffic) * tat / aht)
      if tsl ≤ p then (agents, some p)
      else find_agents_loop e traffic tsl tat aht fuel (agents + 1) (some p)

/-- Post-processing of the search loop's result, mirroring the source's
`utilization = traffic_intensity / agents if agents > 0 else 0.0` and
`achieved_service_level = prob_within_target if 'prob_within_target' in locals() else 0.0`. -/
def agents_output {K : Type} [LinearOrderedField K] (traffic : K) (r : ℕ × Option K) :
    ℕ × K × K :=
  (r.1, if 0 < r.1 then traffic / (r.1 : K) else 0, (r.2).getD 0)

/-- Model of `ErlangCStaffingModel.calculate_required_agents`.  Returns
`(required_agents, utilization, achieved_service_level)`.  `e` models
`math.exp`.  The traffic intensity is `call_volume * avg_handle_time / 60`,
the search starts at `max(1, math.ceil(traffic_intensity))` and runs for at
most `max_iterations = 100` steps. -/
def calculate_required_agents {K : Type} [LinearOrderedField K] [FloorRing K] (e : K → K)
    (call_volume : ℤ) (avg_handle_time target_service_level target_answer_time : K) :
    ℕ × K × K :=
  if call_volume ≤ 0 ∨ avg_handle_time ≤ 0 then (0, 0, 0)
  else
    let traffic : K := (call_volume : K) * avg_handle_time / 60
    if traffic ≤ 0 then (1, 0, 1)
    else
      let start : ℕ := max 1 (Int.toNat ⌈traffic⌉)
      agents_output traffic
        (find_agents_loop e traffic target_service_level target_answer_time
          avg_handle_time 100 start none)

/-- The break condition of the agent search at candidate count `A`: the
probability of answering within the target time meets the target service
level. -/
def answers_cond {K : Type} [LinearOrderedField K] (e : K → K)
    (traffic tsl tat aht : K) (A : ℕ) : Prop :=
  tsl ≤ 1 - erlang_c_probability A traffic * e (-((A : K) - traffic) * tat / aht)

instance {K : Type} [LinearOrderedField K] (e : K → K) (traffic tsl tat aht : K) (A : ℕ) :
    Decidable (answers_cond e traffic tsl tat aht A) := by
  unfold answers_cond; infer_instance

/-- Component error rates fed to `AdaptiveForecastModel.update_weights`.
In the source `_calculate_component_errors` reads them from an accuracy
dictionary with `.get(..., 0.1)` defaults; any rational value (including the
`0.1` default) is representable here, so absent keys are subsumed. -/
structure ComponentErrors where
  seasonal_error : ℚ
  trend_error : ℚ
  growth_error : ℚ
  ml_error : ℚ

/-- The engine's `model_weights` dictionary over its four fixed keys. -/
structure ComponentWeights where
  seasonal : ℚ
  trend : ℚ
  growth : ℚ
  ml_prediction : ℚ

/-- The initial weights set in `AdaptiveForecastModel.__init__`. -/
def initial_model_weights : ComponentWeights :=
  ⟨4 / 10, 3 / 10, 2 / 10, 1 / 10⟩

/-- Sum of the weight dictionary's values (`sum(self.model_weights.values())`). -/
def weight_total (w : ComponentWeights) : ℚ :=
  w.seasonal + w.trend + w.growth + w.ml_prediction

/-- Per-component multiplicative adjustment of `update_weights`: error below
5% multiplies the weight by 1.1, error above 15% by 0.9, otherwise leaves it
unchanged. -/
def error_adjust (err : ℚ) : ℚ :=
  if err < 5 / 100 then 11 / 10 else if 15 / 100 < err then 9 / 10 else 1

/-- Model of `AdaptiveForecastModel.update_weights`: adjust each tracked
component's weight by `error_adjust`, then renormalize to sum `1.0` provided
the total is positive. -/
def update_weights (w : ComponentWeights) (errs : ComponentErrors) : ComponentWeights :=
  let w1 : ComponentWeights :=
    ⟨w.seasonal * error_adjust errs.seasonal_error,
     w.trend * error_adjust errs.trend_error,
     w.growth * error_adjust errs.growth_error,
     w.ml_prediction * error_adjust errs.ml_error⟩
  if 0 < weight_total w1 then
    ⟨w1.seasonal / weight_total w1, w1.trend / weight_total w1,
     w1.growth / weight_total w1, w1.ml_prediction / weight_total w1⟩
  else w1

/-- All four weights strictly positive. -/
def weights_pos (w : ComponentWeights) : Prop :=
  0 < w.seasonal ∧ 0 < w.trend ∧ 0 < w.growth ∧ 0 < w.ml_prediction

/-- Per-segment base call rates per 1000 members
(`settings.SEGMENT_CALL_RATES`), merged with the source's
`.get(segment, 120)` default for unknown segments. -/
def SEGMENT_CALL_RATES (segment : String) : ℚ :=
  if segment = "Highly Engaged" then 85
  else if segment = "Reactive Engagers" then 145
  else if segment = "Content & Complacent" then 95
  else if segment = "Unengaged" then 180
  else 120

/-- The four named segment adjustment percentages
(`SegmentAdjustments` schema). -/
structure SegmentAdjustments where
  highly_engaged : ℚ
  reactive_engagers : ℚ
  content_complacent : ℚ
  unengaged : ℚ
deriving DecidableEq

/-- The `adjustment_map` dictionary built inside `calculate_segment_impact`,
merged with the source's `.get(segment, 0.0)` default. -/
def adjustment_map (adj : SegmentAdjustments) (segment : String) : ℚ :=
  if segment = "Highly Engaged" then adj.highly_engaged
  else if segment = "Reactive Engagers" then adj.reactive_engagers
  else if segment = "Content & Complacent" then adj.content_complacent
  else if segment = "Unengaged" then adj.unengaged
  else 0

/-- Model of `SegmentImpactModel.calculate_segment_impact`: accumulate
`adjusted_rate * weight` over the member distribution (a Python dict,
modelled as an association list), then divide by 1000; return 0 outright when
total membership is 0. -/
def calculate_segment_impact (member_distribution : List (String × ℚ))
    (adj : SegmentAdjustments) : ℚ :=
  let total_members := (member_distribution.map Prod.snd).sum
  if total_members = 0 then 0
  else
    let total_weighted_rate :=
      member_distribution.foldl
        (fun acc sm =>
          acc + SEGMENT_CALL_RATES sm.1 * (1 + adjustment_map adj sm.1 / 100) *
            (sm.2 / total_members))
        0
    total_weighted_rate / 1000

/-- Reference definition following the specification's words (§4.3): for each
segment an adjusted base call rate `base_rate_per_1000 * (1 + adjustment_pct/100)`,
weighted by that segment's share of total members, summed, then divided by
1000. -/
def segment_impact_reference (dist : List (String × ℚ)) (adj : SegmentAdjustments) : ℚ :=
  (dist.map (fun sm =>
    SEGMENT_CALL_RATES sm.1 * (1 + adjustment_map adj sm.1 / 100) *
      (sm.2 / (dist.map Prod.snd).sum))).sum / 1000

/-- The spec's worked example distribution over the four named segments. -/
def example_distribution : List (String × ℚ) :=
  [("Highly Engaged", 250), ("Reactive Engagers", 350),
   ("Content & Complacent", 250), ("Unengaged", 150)]

/-- Linear interpolation between adjacent order statistics at fractional
position `h`, as performed by `np.percentile` with the default method:
`s[i] + (h - i) * (s[min(i+1, n-1)] - s[i])` where `i = floor(h)`. -/
def interp (s : List ℚ) (h : ℚ) : ℚ :=
  s.getD (Int.toNat ⌊h⌋) 0 +
    (h - ((Int.toNat ⌊h⌋ : ℕ) : ℚ)) *
      (s.getD (min (Int.toNat ⌊h⌋ + 1) (s.length - 1)) 0 - s.getD (Int.toNat ⌊h⌋) 0)

/-- Model of `np.percentile(xs, q)` (linear interpolation, numpy's default):
sort the sample and interpolate at position `(n - 1) * q / 100`.  (numpy
rejects an empty sample; the `0` branch is never exercised because
`run_forecast_simulation` only computes percentiles behind its `if values:`
guard.) -/
def percentile (xs : List ℚ) (q : ℚ) : ℚ :=
  if (xs.insertionSort (· ≤ ·)).length = 0 then 0
  else interp (xs.insertionSort (· ≤ ·))
    ((((xs.insertionSort (· ≤ ·)).length : ℚ) - 1) * q / 100)

/-- The simplified scenario dictionary consumed by the Monte Carlo simulator
(the keys read via `scenario.get(...)` in `_single_iteration`; all of them are
populated by `_run_monte_carlo`, so the `.get` defaults never fire there). -/
structure MCScenario where
  forecast_months : ℕ
  base_members : ℚ
  member_growth_rate : ℚ
  calls_per_member : ℚ
  avg_handle_time : ℚ
  seasonality_factor : ℚ

/-- One month (1-based `m`) of `MonteCarloSimulator._single_iteration`:
`members = int(base_members * (1 + growth_rate) ** month)` with
`growth_rate = member_growth_rate / 100`, `calls = int(members * calls_per_member)`,
`staff = max(1, int(calls * avg_handle_time / 8000))`. -/
def iteration_month (s : MCScenario) (m : ℕ) : ℤ × ℤ × ℤ :=
  let members := pyInt (s.base_members * (1 + s.member_growth_rate / 100) ^ m)
  let calls := pyInt ((members : ℚ) * s.calls_per_member)
  let staff := max 1 (pyInt ((calls : ℚ) * s.avg_handle_time / 8000))
  (members, calls, staff)

/-- The three per-month trajectories produced by one simulation iteration. -/
structure IterationResult where
  predicted_members : List ℤ
  predicted_calls : List ℤ
  required_staff : List ℤ

/-- Model of `_single_iteration`: trajectories for months
`1..forecast_months`. -/
def single_iteration (s : MCScenario) : IterationResult :=
  let t := (List.range s.forecast_months).map (fun j => iteration_month s (j + 1))
  ⟨t.map (fun x => x.1), t.map (fun x => x.2.1), t.map (fun x => x.2.2)⟩

/-- Per-iteration perturbation at the top of the simulation loop: growth-rate
noise is additive, seasonality and handle-time noise multiplicative.  The
`noise` triple models one draw of the three `np.random.normal` calls. -/
def modify_scenario (s : MCScenario) (noise : ℚ × ℚ × ℚ) : MCScenario :=
  { s with
    member_growth_rate := s.member_growth_rate + noise.1
    seasonality_factor := s.seasonality_factor * noise.2.1
    avg_handle_time := s.avg_handle_time * noise.2.2 }

/-- The five per-month percentile rows computed for one metric
(`p10/p25/median/p75/p90`). -/
structure MetricBands where
  p10 : List ℚ
  p25 : List ℚ
  median : List ℚ
  p75 : List ℚ
  p90 : List ℚ

/-- Column `j` (0-based month index) of the iteration-by-month value matrix:
the sample handed to `np.percentile(arr, q, axis=0)` for that month. -/
def month_column (values : List (List ℤ)) (j : ℕ) : List ℚ :=
  values.map (fun traj => ((traj.getD j 0 : ℤ) : ℚ))

/-- Percentile rows over the value matrix, one entry per month. -/
def metric_bands (values : List (List ℤ)) (months : ℕ) : MetricBands :=
  ⟨(List.range months).map (fun j => percentile (month_column values j) 10),
   (List.range months).map (fun j => percentile (month_column values j) 25),
   (List.range months).map (fun j => percentile (month_column values j) 50),
   (List.range months).map (fun j => percentile (month_column values j) 75),
   (List.range months).map (fun j => percentile (month_column values j) 90)⟩

/-- The full percentile dictionary of `run_forecast_simulation`. -/
structure SimBands where
  predicted_members : MetricBands
  predicted_calls : MetricBands
  required_staff : MetricBands

/-- Model of `MonteCarloSimulator.run_forecast_simulation`: run `iterations`
perturbed single-path projections, collect the per-metric trajectories, then
reduce each metric to per-month percentile bands.  With zero iterations the
source's `if values:` guard leaves the percentile dictionary empty, modelled
here by empty band lists. -/
def run_forecast_simulation (base : MCScenario) (iterations : ℕ)
    (noise : ℕ → ℚ × ℚ × ℚ) : SimBands :=
  if iterations = 0 then
    ⟨⟨[], [], [], [], []⟩, ⟨[], [], [], [], []⟩, ⟨[], [], [], [], []⟩⟩
  else
    let iters := (List.range iterations).map
      (fun i => single_iteration (modify_scenario base (noise i)))
    ⟨metric_bands (iters.map (fun r => r.predicted_members)) base.forecast_months,
     metric_bands (iters.map (fun r => r.predicted_calls)) base.forecast_months,
     metric_bands (iters.map (fun r => r.required_staff)) base.forecast_months⟩

/-- The ordering `p10 <= p25 <= median <= p75 <= p90` at month `j`. -/
def band_ordered (b : MetricBands) (j : ℕ) : Prop :=
  b.p10.getD j 0 ≤ b.p25.getD j 0 ∧ b.p25.getD j 0 ≤ b.median.getD j 0 ∧
  b.median.getD j 0 ≤ b.p75.getD j 0 ∧ b.p75.getD j 0 ≤ b.p90.getD j 0

/-- The six accuracy metrics of the `AccuracyMetrics` schema.  `msqe` is the
mean squared error; the source's `rmse` is its square root
(`np.sqrt(np.mean((actual - predicted) ** 2))`), which is finite and zero
exactly when `msqe` is, the only properties at stake here. -/
structure AccuracyMetricsM where
  mape : ℚ
  mae : ℚ
  msqe : ℚ
  wmape : ℚ
  smape : ℚ
  r_squared : ℚ
deriving DecidableEq

/-- Model of `ForecastEngine.calculate_accuracy_metrics`.  Empty input returns
all-zero metrics (the source's early return).  `none` models a non-finite
float result: numpy does not raise on the remaining zero denominators but
yields `inf`/`nan` — `wmape` divides by `np.sum(actual)` with no guard, and
`smape` divides by `|actual| + |predicted|` elementwise with no guard.  `mape`
is protected by `np.clip(actual, 1e-10, None)` and `r_squared` by its
`ss_tot != 0` test, so neither can produce a zero denominator. -/
def calculate_accuracy_metrics (actual predicted : List ℚ) : Option AccuracyMetricsM :=
  if actual.length = 0 ∨ predicted.length = 0 then
    some ⟨0, 0, 0, 0, 0, 0⟩
  else
    let pairs := actual.zip predicted
    let n : ℚ := actual.length
    if actual.sum = 0 ∨ ∃ c ∈ pairs, |c.1| + |c.2| = 0 then none
    else
      let mape := (pairs.map (fun c => |(c.1 - c.2) / max c.1 (1 / 10 ^ 10)|)).sum / n * 100
      let mae := (pairs.map (fun c => |c.1 - c.2|)).sum / n
      let msqe := (pairs.map (fun c => (c.1 - c.2) ^ 2)).sum / n
      let wmape := (pairs.map (fun c => |c.1 - c.2|)).sum / actual.sum * 100
      let smape := (pairs.map (fun c => 2 * |c.1 - c.2| / (|c.1| + |c.2|))).sum / n * 100
      let ss_res := (pairs.map (fun c => (c.1 - c.2) ^ 2)).sum
      let ss_tot := (actual.map (fun a => (a - actual.sum / n) ^ 2)).sum
      let r_squared := if ss_tot ≠ 0 then 1 - ss_res / ss_tot else 0
      some ⟨mape, mae, msqe, wmape, smape, r_squared⟩

/-- One month of the engine's output (`ForecastResult` schema).  The three
confidence dictionaries are modelled as ordered key/value association lists;
the schema initializes them to `None`, and only
`_apply_confidence_intervals` fills them. -/
structure ForecastResultM where
  month : String
  predicted_members : ℤ
  predicted_calls : ℤ
  calls_per_member : ℚ
  required_staff : ℕ
  required_supervisors : ℤ
  agent_utilization : ℚ
  service_level : ℚ
  members_confidence : Option (List (String × ℤ))
  calls_confidence : Option (List (String × ℤ))
  staff_confidence : Option (List (String × ℤ))
deriving DecidableEq

/-- The confidence dictionary literal attached by
`_apply_confidence_intervals` for one metric at month index `i`: exactly the
keys `p10`, `p25`, `p75` and `p90`, each holding `int(...)` of the simulated
band value.  The simulator's `median` row is never read.  (In the engine all
band rows share length `forecast_months`, so the `getD` total lookup is
faithful to the source's direct indexing.) -/
def confidence_entry (b : MetricBands) (i : ℕ) : List (String × ℤ) :=
  [("p10", pyInt (b.p10.getD i 0)), ("p25", pyInt (b.p25.getD i 0)),
   ("p75", pyInt (b.p75.getD i 0)), ("p90", pyInt (b.p90.getD i 0))]

/-- The `enumerate` loop of `_apply_confidence_intervals`, carrying the
running index.  A result whose index is not below the simulated band length
(`len(confidence_intervals['predicted_members']['p25'])`) is left untouched. -/
def apply_confidence_intervals_from (ci : SimBands) :
    ℕ → List ForecastResultM → List ForecastResultM
  | _, [] => []
  | i, r :: rest =>
    (if i < ci.predicted_members.p25.length then
      { r with
        members_confidence := some (confidence_entry ci.predicted_members i)
        calls_confidence := some (confidence_entry ci.predicted_calls i)
        staff_confidence := some (confidence_entry ci.required_staff i) }
    else r) :: apply_confidence_intervals_from ci (i + 1) rest

/-- Model of `ForecastEngine._apply_confidence_intervals`. -/
def apply_confidence_intervals (rs : List ForecastResultM) (ci : SimBands) :
    List ForecastResultM :=
  apply_confidence_intervals_from ci 0 rs

/-- Key list of a confidence dictionary, when present. -/
def conf_keys (c : Option (List (String × ℤ))) : Option (List String) :=
  c.map (fun l => l.map Prod.fst)

/-- An all-blank forecast result, used as a lookup default. -/
def blank_result : ForecastResultM :=
  ⟨"", 0, 0, 0, 0, 0, 0, 0, none, none, none⟩

/-- Concrete bands with one simulated month, used in witnesses. -/
def sample_bands : SimBands :=
  ⟨⟨[1], [2], [3], [4], [5]⟩, ⟨[6], [7], [8], [9], [10]⟩, ⟨[11], [12], [13], [14], [15]⟩⟩

/-- The four call volume factors (`CallVolumeFactors` schema). -/
structure CallVolumeFactors where
  seasonal_factor : ℚ
  engagement_impact : ℚ
  product_mix_impact : ℚ
  regulatory_impact : ℚ
deriving DecidableEq

/-- The staffing parameters (`StaffingParameters` schema). -/
structure StaffingParameters where
  avg_handle_time : ℚ
  hours_per_agent : ℤ
  utilization_target : ℚ
  supervisor_ratio : ℚ
  target_service_level : ℚ
  target_answer_time : ℤ
deriving DecidableEq

/-- The regulatory change flags (the schema class is spelled
`RegulatoryChan1ges` in the source). -/
structure RegulatoryChan1ges where
  benefit_changes : Bool
  formulary_updates : Bool
  network_changes : Bool
  premium_changes : Bool
deriving DecidableEq

/-- A Python `datetime.date` (year, month, day). -/
structure PyDate where
  year : ℕ
  month : ℕ
  day : ℕ
deriving DecidableEq

/-- The full scenario request (`ForecastScenarioCreate` schema), with every
field, including the three the fingerprint omits. -/
structure ForecastScenarioCreate where
  name : String
  description : Option String
  base_month : PyDate
  forecast_months : ℕ
  member_growth_rate : ℚ
  segment_adjustments : SegmentAdjustments
  call_volume_factors : CallVolumeFactors
  staffing_parameters : StaffingParameters
  regulatory_changes : RegulatoryChan1ges
  monte_carlo_iterations : ℕ
  confidence_level : ℚ
deriving DecidableEq

/-- Two-digit zero padding, as in ISO date rendering. -/
def pad2 (n : ℕ) : String :=
  if n < 10 then "0" ++ toString n else toString n

/-- Python's `str(date)`: ISO `YYYY-MM-DD`. -/
def date_str (d : PyDate) : String :=
  toString d.year ++ "-" ++ pad2 d.month ++ "-" ++ pad2 d.day

/-- Deterministic rendering of a rational scenario field.  Python renders the
float value; only determinism in the value matters here, not the exact
digits. -/
def rat_str (q : ℚ) : String := toString q

/-- Pydantic's `str(model)` for `SegmentAdjustments`
(`field=value` pairs in declaration order). -/
def segment_adjustments_str (a : SegmentAdjustments) : String :=
  "highly_engaged=" ++ rat_str a.highly_engaged ++
    " reactive_engagers=" ++ rat_str a.reactive_engagers ++
    " content_complacent=" ++ rat_str a.content_complacent ++
    " unengaged=" ++ rat_str a.unengaged

/-- Pydantic's `str(model)` for `CallVolumeFactors`. -/
def call_volume_factors_str (f : CallVolumeFactors) : String :=
  "seasonal_factor=" ++ rat_str f.seasonal_factor ++
    " engagement_impact=" ++ rat_str f.engagement_impact ++
    " product_mix_impact=" ++ rat_str f.product_mix_impact ++
    " regulatory_impact=" ++ rat_str f.regulatory_impact

/-- Pydantic's `str(model)` for `StaffingParameters`. -/
def staffing_parameters_str (p : StaffingParameters) : String :=
  "avg_handle_time=" ++ rat_str p.avg_handle_time ++
    " hours_per_agent=" ++ toString p.hours_per_agent ++
    " utilization_target=" ++ rat_str p.utilization_target ++
    " supervisor_ratio=" ++ rat_str p.supervisor_ratio ++
    " target_service_level=" ++ rat_str p.target_service_level ++
    " target_answer_time=" ++ toString p.target_answer_time

/-- The f-string hashed by `ForecastEngine._generate_scenario_hash`:
`f"{name}_{base_month}_{forecast_months}_{member_growth_rate}_{segment_adjustments}_{call_volume_factors}_{staffing_parameters}_{monte_carlo_iterations}"`.
The source then takes this string's MD5 digest; MD5 is a deterministic
function of the string, so the string itself serves as the fingerprint input.
`description`, `regulatory_changes` and `confidence_level` do not occur in
it. -/
def scenario_hash_input (s : ForecastScenarioCreate) : String :=
  s.name ++ "_" ++ date_str s.base_month ++ "_" ++ toString s.forecast_months ++ "_" ++
    rat_str s.member_growth_rate ++ "_" ++
    segment_adjustments_str s.segment_adjustments ++ "_" ++
    call_volume_factors_str s.call_volume_factors ++ "_" ++
    staffing_parameters_str s.staffing_parameters ++ "_" ++
    toString s.monte_carlo_iterations

/-- A concrete schema-valid scenario. -/
def scenarioA : ForecastScenarioCreate :=
  { name := "baseline"
    description := none
    base_month := ⟨2026, 1, 1⟩
    forecast_months := 12
    member_growth_rate := 5 / 2
    segment_adjustments := ⟨0, 0, 0, 0⟩
    call_volume_factors := ⟨1, 1, 1, 1⟩
    staffing_parameters := ⟨31 / 5, 160, 17 / 20, 3 / 25, 4 / 5, 20⟩
    regulatory_changes := ⟨false, false, false, false⟩
    monte_carlo_iterations := 1000
    confidence_level := 9 / 10 }

/-- `scenarioA` with only the confidence level changed. -/
def scenarioB : ForecastScenarioCreate :=
  { scenarioA with confidence_level := 99 / 100 }

/-- One historical observation (the engine's DataFrame row: date,
total_members, total_calls, avg_handle_time). -/
structure HistoricalRow where
  date : PyDate
  total_members : ℚ
  total_calls : ℚ
  avg_handle_time : ℚ

/-- The base metrics dictionary of `_calculate_base_metrics`. -/
structure BaseMetrics where
  base_members : ℚ
  base_calls_per_member : ℚ
  base_handle_time : ℚ
  growth_trend : ℚ

/-- Model of `_calculate_growth_trend`: mean month-over-month growth of
`total_members`, using only steps whose previous membership is positive;
defaults to 2.5% for histories of fewer than 3 rows or when no step
qualifies. -/
def calculate_growth_trend (rows : List HistoricalRow) : ℚ :=
  if rows.length < 3 then 1 / 40
  else
    let ms := rows.map (fun r => r.total_members)
    let rates := (ms.zip ms.tail).filterMap
      (fun c => if 0 < c.1 then some ((c.2 - c.1) / c.1) else none)
    if rates.length = 0 then 1 / 40 else rates.sum / (rates.length : ℚ)

/-- Model of `_calculate_base_metrics`: fixed defaults on empty history,
otherwise read from the last row (`data.iloc[-1]`; the `.get` fallbacks never
fire because the columns are always present). -/
def calculate_base_metrics (rows : List HistoricalRow) : BaseMetrics :=
  match rows.getLast? with
  | none => ⟨10000, 3 / 20, 31 / 5, 1 / 40⟩
  | some last =>
    ⟨last.total_members, last.total_calls / max last.total_members 1,
     last.avg_handle_time, calculate_growth_trend rows⟩

/-- Model of `_perform_seasonal_decomposition` (its cache is disabled, see
`REDIS_AVAILABLE`): with at least 24 observations it defers to the external
statsmodels decomposition, supplied as the `fit` parameter; with fewer it
falls back to the flat all-zero seasonal index map `{i+1: 0.0}`.  Consumers
read indices via `.get(month_num, 0.0)`. -/
def perform_seasonal_decomposition (fit : List HistoricalRow → ℕ → ℚ)
    (rows : List HistoricalRow) : ℕ → ℚ :=
  if 24 ≤ rows.length then fit rows else fun _ => 0

/-- Model of `_get_medicare_seasonal_multiplier` against
`settings.MEDICARE_SEASONAL_FACTORS`: AEP (months 10-12) multiplies calls by
2.1, plan-year start (January) by 1.6, the summer lull (June-August) by 0.75,
any other month by 1.0.  The three configured periods are disjoint, so the
dictionary iteration order is immaterial. -/
def get_medicare_seasonal_multiplier (month : ℕ) : ℚ :=
  if month = 10 ∨ month = 11 ∨ month = 12 then 21 / 10
  else if month = 1 then 16 / 10
  else if month = 6 ∨ month = 7 ∨ month = 8 then 3 / 4
  else 1

/-- Gregorian leap years. -/
def is_leap_year (y : ℕ) : Bool :=
  y % 4 = 0 && (y % 100 != 0 || y % 400 = 0)

/-- Days in a calendar month. -/
def days_in_month (y m : ℕ) : ℕ :=
  if m = 2 then (if is_leap_year y then 29 else 28)
  else if m = 4 ∨ m = 6 ∨ m = 9 ∨ m = 11 then 30
  else 31

/-- `base_date + relativedelta(months=offset)`: calendar month arithmetic
with the day clamped to the target month's length. -/
def add_months (d : PyDate) (k : ℕ) : PyDate :=
  let t := d.month - 1 + k
  let y := d.year + t / 12
  let m := t % 12 + 1
  ⟨y, m, min d.day (days_in_month y m)⟩

/-- `forecast_month.strftime('%Y-%m')`. -/
def month_label (d : PyDate) : String :=
  toString d.year ++ "-" ++ pad2 d.month

/-- Model of `ForecastEngine._forecast_single_month`.  `e` models `math.exp`
inside the Erlang-C staffing search.  The three confidence fields are
initialized to `None`, exactly as in the `ForecastResult` schema. -/
def forecast_single_month (e : ℚ → ℚ) (forecast_month : PyDate) (month_offset : ℕ)
    (scenario : ForecastScenarioCreate) (base : BaseMetrics)
    (seasonal_indices : ℕ → ℚ) : ForecastResultM :=
  let growth_factor := (1 + scenario.member_growth_rate / 100) ^ month_offset
  let predicted_members := pyInt (base.base_members * growth_factor)
  let month_num := forecast_month.month
  let seasonal_multiplier := 1 + seasonal_indices month_num
  let medicare_multiplier := get_medicare_seasonal_multiplier month_num
  let default_distribution : List (String × ℚ) :=
    [("Highly Engaged", (predicted_members : ℚ) * (25 / 100)),
     ("Reactive Engagers", (predicted_members : ℚ) * (35 / 100)),
     ("Content & Complacent", (predicted_members : ℚ) * (25 / 100)),
     ("Unengaged", (predicted_members : ℚ) * (15 / 100))]
  let calls_per_member :=
    calculate_segment_impact default_distribution scenario.segment_adjustments
  let total_volume_factor :=
    scenario.call_volume_factors.seasonal_factor *
      scenario.call_volume_factors.engagement_impact *
      scenario.call_volume_factors.product_mix_impact *
      scenario.call_volume_factors.regulatory_impact *
      seasonal_multiplier * medicare_multiplier
  let predicted_calls :=
    pyInt ((predicted_members : ℚ) * calls_per_member * total_volume_factor)
  let sr := calculate_required_agents e predicted_calls
    scenario.staffing_parameters.avg_handle_time
    scenario.staffing_parameters.target_service_level
    ((scenario.staffing_parameters.target_answer_time : ℤ) : ℚ)
  let required_supervisors :=
    max 1 (pyInt ((sr.1 : ℚ) * scenario.staffing_parameters.supervisor_ratio))
  { month := month_label forecast_month
    predicted_members := predicted_members
    predicted_calls := predicted_calls
    calls_per_member := calls_per_member
    required_staff := sr.1
    required_supervisors := required_supervisors
    agent_utilization := sr.2.1
    service_level := sr.2.2
    members_confidence := none
    calls_confidence := none
    staff_confidence := none }

/-- From `core/cache.py`: `REDIS_AVAILABLE = False`
("Redis disabled for now"). -/
def REDIS_AVAILABLE : Bool := false

/-- `CacheManager.get_forecast_result`: the manager is constructed with
`self.enabled = REDIS_AVAILABLE`, and a disabled (or connectionless) manager
returns `None` from every lookup.  The enabled branch would consult Redis,
which is outside this build; with `REDIS_AVAILABLE = False` it is dead code. -/
def get_forecast_result (_h : String) : Option (List ForecastResultM) :=
  if REDIS_AVAILABLE then none else none

/-- Model of `ForecastEngine._run_monte_carlo`: assemble the simplified
scenario dictionary from the request and the base metrics, then delegate to
the Monte Carlo simulator. -/
def run_monte_carlo (scenario : ForecastScenarioCreate) (base : BaseMetrics)
    (noise : ℕ → ℚ × ℚ × ℚ) : SimBands :=
  run_forecast_simulation
    ⟨scenario.forecast_months, base.base_members, scenario.member_growth_rate,
     base.base_calls_per_member, scenario.staffing_parameters.avg_handle_time,
     scenario.call_volume_factors.seasonal_factor⟩
    scenario.monte_carlo_iterations noise

/-- Model of `ForecastEngine.generate_forecast`, restricted to the ordered
forecast-result list it returns.  (The metadata dictionary also returned by
the source carries the wall-clock `computation_time`, the anomaly count and
the data-quality score; none of them feed back into the result list, and the
anomaly detector's output is consumed only there.)  `e` models `math.exp`,
`fit` the external statsmodels decomposition (consulted only for histories of
at least 24 rows), and `noise` the `np.random.normal` draws of the Monte
Carlo loop.  The fingerprint cache is consulted first; with
`REDIS_AVAILABLE = False` it never hits, so every invocation recomputes. -/
def generate_forecast_results (e : ℚ → ℚ) (fit : List HistoricalRow → ℕ → ℚ)
    (scenario : ForecastScenarioCreate) (historical : List HistoricalRow)
    (noise : ℕ → ℚ × ℚ × ℚ) : List ForecastResultM :=
  match get_forecast_result (scenario_hash_input scenario) with
  | some cached => cached
  | none =>
    let seasonal_indices := perform_seasonal_decomposition fit historical
    let base := calculate_base_metrics historical
    let results := (List.range scenario.forecast_months).map
      (fun k => forecast_single_month e (add_months scenario.base_month (k + 1)) (k + 1)
        scenario base seasonal_indices)
    if 0 < scenario.monte_carlo_iterations then
      apply_confidence_intervals results (run_monte_carlo scenario base noise)
    else results

/-- The deterministic point fields of a monthly result (everything except the
three Monte Carlo confidence dictionaries). -/
def point_part (r : ForecastResultM) : String × ℤ × ℤ × ℚ × ℕ × ℤ × ℚ × ℚ :=
  (r.month, r.predicted_members, r.predicted_calls, r.calls_per_member,
   r.required_staff, r.required_supervisors, r.agent_utilization, r.service_level)

/-- Stand-in for `math.exp` in the concrete engine runs below; the confidence
fields compared there never evaluate it. -/
def exp0 : ℚ → ℚ := fun _ => 0

/-- Stand-in for the statsmodels decomposition; never consulted below, since
the history has fewer than 24 rows. -/
def fit0 : List HistoricalRow → ℕ → ℚ := fun _ _ => 0

/-- A one-row history: 10000 members, 1500 calls, 6-minute handle time. -/
def history1 : List HistoricalRow :=
  [⟨⟨2026, 1, 1⟩, 10000, 1500, 6⟩]

/-- `scenarioA` with a one-month horizon and the schema-minimal 100 Monte
Carlo iterations. -/
def scenarioC : ForecastScenarioCreate :=
  { scenarioA with forecast_months := 1, monte_carlo_iterations := 100 }

/-- One possible sequence of `np.random.normal` draws: all iterations draw
zero growth noise and unit multiplicative noise. -/
def noise_run1 : ℕ → ℚ × ℚ × ℚ := fun _ => (0, 1, 1)

/-- Another possible sequence of draws: all iterations draw growth noise
97.5. -/
def noise_run2 : ℕ → ℚ × ℚ × ℚ := fun _ => (195 / 2, 1, 1)

/-- C2: the Erlang-C probability is NOT computed by an overflow-safe
recurrence: the source evaluates `traffic ** agents` and raw factorials
directly, relying on the `except OverflowError` handler which returns `0.0`.
At a realistic contact-center volume (200 agents, 150 Erlangs) the very first
intermediate exceeds the IEEE double range, so the Python code returns `0.0`
from the exception handler, while the true Erlang-C probability (computed in
exact arithmetic) is strictly positive. -/
theorem erlang_c_factorial_overflow :
    pythonFloatMax < erlang_c_first_term 200 150 ∧
    0 < erlang_c_probability (K := ℚ) 200 150 := by
  constructor
  · have h128 : ((2 : ℚ) ^ 7) ^ 200 ≤ 150 ^ 200 := by
      have : ((2 : ℚ) ^ 7) = 128 := by norm_num
      rw [this]
      exact pow_le_pow_left₀ (by norm_num) (by norm_num) 200
    have h1400 : ((2 : ℚ) ^ 7) ^ 200 = 2 ^ 1400 := by
      rw [← pow_mul]
    have hlt : pythonFloatMax < (2 : ℚ) ^ 1400 := by
      have h1 : (2 : ℚ) ^ 1024 ≤ 2 ^ 1400 :=
        pow_le_pow_right₀ (by norm_num) (by norm_num)
      have h2 : (0 : ℚ) < 2 ^ 971 := by positivity
      unfold pythonFloatMax
      linarith
    unfold erlang_c_first_term
    calc pythonFloatMax < (2 : ℚ) ^ 1400 := hlt
      _ = ((2 : ℚ) ^ 7) ^ 200 := h1400.symm
      _ ≤ 150 ^ 200 := h128
  · unfold erlang_c_probability
    have hnum : (0 : ℚ) <
        (150 : ℚ) ^ 200 / (Nat.factorial 200 : ℚ) * ((200 : ℕ) / (((200 : ℕ) : ℚ) - 150)) := by
      have hfac : (0 : ℚ) < (Nat.factorial 200 : ℚ) := by
        exact_mod_cast Nat.factorial_pos 200
      have h1 : (0 : ℚ) < (150 : ℚ) ^ 200 / (Nat.factorial 200 : ℚ) :=
        div_pos (by positivity) hfac
      have h2 : (0 : ℚ) < ((200 : ℕ) : ℚ) / (((200 : ℕ) : ℚ) - 150) := by
        norm_num
      calc (0 : ℚ) < ((150 : ℚ) ^ 200 / (Nat.factorial 200 : ℚ)) *
            (((200 : ℕ) : ℚ) / (((200 : ℕ) : ℚ) - 150)) := mul_pos h1 h2
        _ = _ := by norm_num
    have hsum : (0 : ℚ) ≤
        ((List.range 200).map (fun k => (150 : ℚ) ^ k / (Nat.factorial k : ℚ))).sum := by
      apply List.sum_nonneg
      intro x hx
      obtain ⟨k, _, rfl⟩ := List.mem_map.mp hx
      have hfac : (0 : ℚ) < (Nat.factorial k : ℚ) := by
        exact_mod_cast Nat.factorial_pos k
      positivity
    apply div_pos
    · exact_mod_cast hnum
    · have := hnum
      push_cast at this ⊢
      linarith

/-- The search loop never decreases the agent count. -/
lemma find_agents_loop_le {K : Type} [LinearOrderedField K] (e : K → K)
    (traffic tsl tat aht : K) :
    ∀ (fuel s : ℕ) (lp : Option K),
      s ≤ (find_agents_loop e traffic tsl tat aht fuel s lp).1 := by
  intro fuel
  induction fuel with
  | zero => intro s lp; simp [find_agents_loop]
  | succ n ih =>
    intro s lp
    rw [find_agents_loop]
    split
    · exact le_trans (Nat.le_succ s) (ih (s + 1) lp)
    · dsimp only
      split
      · exact le_refl s
      · exact le_trans (Nat.le_succ s) (ih (s + 1) _)

/-- Once the candidate count exceeds the traffic intensity it stays above it:
the loop only ever increments, and it is entered above the intensity. -/
lemma find_agents_loop_gt {K : Type} [LinearOrderedField K] (e : K → K)
    (traffic tsl tat aht : K) :
    ∀ (fuel s : ℕ) (lp : Option K), traffic < (s : K) →
      traffic < ((find_agents_loop e traffic tsl tat aht fuel s lp).1 : K) := by
  intro fuel s lp hs
  have := find_agents_loop_le e traffic tsl tat aht fuel s lp
  calc traffic < (s : K) := hs
    _ ≤ _ := by exact_mod_cast this

/-- When some candidate within the remaining fuel satisfies the break
condition, the loop stops at the least such candidate and reports its achieved
service level. -/
lemma find_agents_loop_min {K : Type} [LinearOrderedField K] (e : K → K)
    (traffic tsl tat aht : K) :
    ∀ (fuel s : ℕ) (lp : Option K), traffic < (s : K) →
      (∃ j, j < fuel ∧ answers_cond e traffic tsl tat aht (s + j)) →
      ∃ A,
        find_agents_loop e traffic tsl tat aht fuel s lp =
          (A, some (1 - erlang_c_probability A traffic *
            e (-((A : K) - traffic) * tat / aht))) ∧
        answers_cond e traffic tsl tat aht A ∧ s ≤ A ∧
        ∀ B, s ≤ B → B < A → ¬ answers_cond e traffic tsl tat aht B := by
  intro fuel
  induction fuel with
  | zero =>
    intro s lp _ hex
    obtain ⟨j, hj, _⟩ := hex
    exact absurd hj (Nat.not_lt_zero j)
  | succ n ih =>
    intro s lp hs hex
    rw [find_agents_loop]
    rw [if_neg (not_le.mpr hs)]
    by_cases hc : answers_cond e traffic tsl tat aht s
    · have hc' : tsl ≤ 1 - erlang_c_probability s traffic *
          e (-((s : K) - traffic) * tat / aht) := hc
      simp only [hc', if_true, if_pos hc']
      exact ⟨s, rfl, hc, le_refl s, fun B h1 h2 _ => absurd (lt_of_le_of_lt h1 h2) (lt_irrefl s)⟩
    · have hc' : ¬ tsl ≤ 1 - erlang_c_probability s traffic *
          e (-((s : K) - traffic) * tat / aht) := hc
      simp only [if_neg hc']
      have hs1 : traffic < ((s + 1 : ℕ) : K) := by
        push_cast
        calc traffic < (s : K) := hs
          _ ≤ (s : K) + 1 := by linarith
      have hex1 : ∃ j, j < n ∧ answers_cond e traffic tsl tat aht (s + 1 + j) := by
        obtain ⟨j, hj, hcj⟩ := hex
        match j with
        | 0 => exact absurd hcj hc
        | j' + 1 =>
          refine ⟨j', by omega, ?_⟩
          have : s + 1 + j' = s + (j' + 1) := by omega
          rw [this]
          exact hcj
      obtain ⟨A, heq, hcA, hsA, hmin⟩ := ih (s + 1) _ hs1 hex1
      refine ⟨A, heq, hcA, by omega, ?_⟩
      intro B h1 h2
      rcases Nat.eq_or_lt_of_le h1 with h | h
      · rw [← h]; exact hc
      · exact hmin B h h2

/-- For positive call volume and handle time, `calculate_required_agents`
enters the search loop at the least integer strictly greater than the traffic
intensity, namely `floor(traffic) + 1`, with at least 99 evaluation steps of
fuel remaining: the loop starts at `max(1, ceil(traffic))` and the
`agents <= traffic_intensity` guard consumes at most the first iteration
(exactly when the intensity is an integer). -/
lemma calculate_required_agents_eq {K : Type} [LinearOrderedField K] [FloorRing K]
    (e : K → K) (cv : ℤ) (aht tsl tat : K) (hcv : 0 < cv) (haht : 0 < aht) :
    ∃ fuel, 99 ≤ fuel ∧ fuel ≤ 100 ∧
      calculate_required_agents e cv aht tsl tat =
        agents_output ((cv : K) * aht / 60)
          (find_agents_loop e ((cv : K) * aht / 60) tsl tat aht fuel
            (Int.toNat ⌊(cv : K) * aht / 60⌋ + 1) none) ∧
      (cv : K) * aht / 60 < ((Int.toNat ⌊(cv : K) * aht / 60⌋ + 1 : ℕ) : K) := by
  have hT : (0 : K) < (cv : K) * aht / 60 := by
    apply div_pos
    · exact mul_pos (by exact_mod_cast hcv) haht
    · norm_num
  have hfloor0 : (0 : ℤ) ≤ ⌊(cv : K) * aht / 60⌋ := Int.floor_nonneg.mpr (le_of_lt hT)
  have hceil1 : (1 : ℤ) ≤ ⌈(cv : K) * aht / 60⌉ := Int.ceil_pos.mpr hT
  have hcastceil : ((Int.toNat ⌈(cv : K) * aht / 60⌉ : ℕ) : K) = ((⌈(cv : K) * aht / 60⌉ : ℤ) : K) := by
    have h0 : (0 : ℤ) ≤ ⌈(cv : K) * aht / 60⌉ := by omega
    exact_mod_cast congrArg (fun z : ℤ => (z : K)) (Int.toNat_of_nonneg h0)
  have hcastfloor : ((Int.toNat ⌊(cv : K) * aht / 60⌋ : ℕ) : K) = ((⌊(cv : K) * aht / 60⌋ : ℤ) : K) := by
    exact_mod_cast congrArg (fun z : ℤ => (z : K)) (Int.toNat_of_nonneg hfloor0)
  have hA0gt : (cv : K) * aht / 60 < ((Int.toNat ⌊(cv : K) * aht / 60⌋ + 1 : ℕ) : K) := by
    have h1 : ((Int.toNat ⌊(cv : K) * aht / 60⌋ + 1 : ℕ) : K) =
        ((⌊(cv : K) * aht / 60⌋ : ℤ) : K) + 1 := by
      push_cast
      rw [hcastfloor]
    rw [h1]
    exact Int.lt_floor_add_one _
  have hstart : max 1 (Int.toNat ⌈(cv : K) * aht / 60⌉) = Int.toNat ⌈(cv : K) * aht / 60⌉ := by
    omega
  have hmain : calculate_required_agents e cv aht tsl tat =
      agents_output ((cv : K) * aht / 60)
        (find_agents_loop e ((cv : K) * aht / 60) tsl tat aht 100
          (Int.toNat ⌈(cv : K) * aht / 60⌉) none) := by
    unfold calculate_required_agents
    rw [if_neg (by push_neg; exact ⟨hcv, haht⟩)]
    dsimp only
    rw [if_neg (not_le.mpr hT), hstart]
  by_cases hint : ((Int.toNat ⌈(cv : K) * aht / 60⌉ : ℕ) : K) ≤ (cv : K) * aht / 60
  · -- integral intensity: the first iteration is consumed by the skip guard
    have hTeq : (cv : K) * aht / 60 = ((⌈(cv : K) * aht / 60⌉ : ℤ) : K) := by
      rw [hcastceil] at hint
      exact le_antisymm (Int.le_ceil _) hint
    have hfc : ⌊(cv : K) * aht / 60⌋ = ⌈(cv : K) * aht / 60⌉ := by
      conv_lhs => rw [hTeq]
      rw [Int.floor_intCast]
    refine ⟨99, by omega, by omega, ?_, hA0gt⟩
    rw [hmain]
    have h100 : (100 : ℕ) = 99 + 1 := by norm_num
    rw [h100, find_agents_loop, if_pos hint, hfc]
  · -- non-integral intensity: ceil(T) = floor(T) + 1 and the loop enters directly
    have hlt : (cv : K) * aht / 60 < ((⌈(cv : K) * aht / 60⌉ : ℤ) : K) := by
      rw [hcastceil] at hint
      exact not_le.mp hint
    have hfc : ⌈(cv : K) * aht / 60⌉ = ⌊(cv : K) * aht / 60⌋ + 1 := by
      have h1 : ⌊(cv : K) * aht / 60⌋ < ⌈(cv : K) * aht / 60⌉ := by
        have := Int.floor_le ((cv : K) * aht / 60)
        exact_mod_cast lt_of_le_of_lt this hlt
      have h2 := Int.ceil_le_floor_add_one ((cv : K) * aht / 60)
      omega
    refine ⟨100, by omega, by omega, ?_, hA0gt⟩
    rw [hmain, hfc]
    congr 2
    omega

/-- C4 (amended): for every Erlang-C invocation with `call_volume > 0` and a
nonzero `avg_handle_time`, the returned agent count is strictly greater than
the traffic intensity `T = call_volume * avg_handle_time / 60` and the
returned utilization `T / agents` lies in `[0, 1]`.  (At
`avg_handle_time = 0` the source takes the degenerate branch and returns
`(0, 0, 0)` with `T = 0`, so strict stability fails there; see the
counterexample.)  The statement holds for every model `e` of `math.exp`. -/
theorem required_agents_stability_utilization {K : Type} [LinearOrderedField K] [FloorRing K]
    (e : K → K) (cv : ℤ) (aht tsl tat : K) (hcv : 0 < cv) (haht : aht ≠ 0) :
    (cv : K) * aht / 60 < ((calculate_required_agents e cv aht tsl tat).1 : K) ∧
    0 ≤ (calculate_required_agents e cv aht tsl tat).2.1 ∧
    (calculate_required_agents e cv aht tsl tat).2.1 ≤ 1 := by
  rcases lt_or_gt_of_ne haht with hneg | hpos
  · have hT : (cv : K) * aht / 60 < 0 := by
      apply div_neg_of_neg_of_pos
      · exact mul_neg_of_pos_of_neg (by exact_mod_cast hcv) hneg
      · norm_num
    have heq : calculate_required_agents e cv aht tsl tat = (0, 0, 0) := by
      unfold calculate_required_agents
      rw [if_pos (Or.inr (le_of_lt hneg))]
    rw [heq]
    refine ⟨?_, le_refl 0, by norm_num⟩
    simpa using hT
  · have hT : (0 : K) < (cv : K) * aht / 60 := by
      apply div_pos
      · exact mul_pos (by exact_mod_cast hcv) hpos
      · norm_num
    obtain ⟨fuel, _, _, heq, hA0⟩ := calculate_required_agents_eq e cv aht tsl tat hcv hpos
    rw [heq]
    have hgt := find_agents_loop_gt e ((cv : K) * aht / 60) tsl tat aht fuel
      (Int.toNat ⌊(cv : K) * aht / 60⌋ + 1) none hA0
    unfold agents_output
    have hApos : 0 < (find_agents_loop e ((cv : K) * aht / 60) tsl tat aht fuel
        (Int.toNat ⌊(cv : K) * aht / 60⌋ + 1) none).1 := by
      by_contra h
      have h0 : (find_agents_loop e ((cv : K) * aht / 60) tsl tat aht fuel
          (Int.toNat ⌊(cv : K) * aht / 60⌋ + 1) none).1 = 0 := by omega
      rw [h0] at hgt
      simp at hgt
      linarith
    refine ⟨hgt, ?_, ?_⟩
    · rw [if_pos hApos]
      apply div_nonneg (le_of_lt hT)
      exact_mod_cast Nat.zero_le _
    · rw [if_pos hApos]
      apply div_le_one_of_le₀ (le_of_lt hgt)
      exact_mod_cast Nat.zero_le _

/-- C4, counterexample to the claim as stated: with `call_volume = 1 > 0` and
`avg_handle_time = 0` the source returns `(0, 0, 0)` from its degenerate
branch, and the traffic intensity is `0`, so the returned agent count is NOT
strictly greater than the traffic intensity.  Stated over the reals with the
genuine exponential, i.e. for the code as written. -/
theorem required_agents_zero_handle_time :
    calculate_required_agents (K := ℝ) Real.exp 1 0 (4 / 5) 20 = (0, 0, 0) ∧
    ¬ (((1 : ℤ) : ℝ) * 0 / 60 <
        ((calculate_required_agents (K := ℝ) Real.exp 1 0 (4 / 5) 20).1 : ℝ)) := by
  have heq : calculate_required_agents (K := ℝ) Real.exp 1 0 (4 / 5) 20 = (0, 0, 0) := by
    unfold calculate_required_agents
    rw [if_pos (Or.inr (le_refl 0))]
  refine ⟨heq, ?_⟩
  rw [heq]
  norm_num

/-- Witness for `required_agents_stability_utilization` at a concrete input:
`call_volume = 1`, `avg_handle_time = 60` (traffic intensity `1`), over `ℚ`
with the constant-zero stand-in for `exp`. -/
theorem required_agents_stability_utilization_witness :
    (0 : ℤ) < 1 ∧ (60 : ℚ) ≠ 0 ∧
    (((1 : ℤ) : ℚ) * 60 / 60 <
        ((calculate_required_agents (fun _ => (0 : ℚ)) 1 60 (4 / 5) 20).1 : ℚ) ∧
      0 ≤ (calculate_required_agents (fun _ => (0 : ℚ)) 1 60 (4 / 5) 20).2.1 ∧
      (calculate_required_agents (fun _ => (0 : ℚ)) 1 60 (4 / 5) 20).2.1 ≤ 1) :=
  ⟨by norm_num, by norm_num,
    required_agents_stability_utilization (fun _ => (0 : ℚ)) 1 60 (4 / 5) 20
      (by norm_num) (by norm_num)⟩

/-- For `0 < traffic < agents` the Erlang-C value computed by the source's
formula lies in `[0, 1]`: the denominator is the numerator plus a nonnegative
partial sum. -/
lemma erlang_c_probability_mem_unit {K : Type} [LinearOrderedField K] (A : ℕ) (traffic : K)
    (h1 : 0 < traffic) (h2 : traffic < (A : K)) :
    0 ≤ erlang_c_probability A traffic ∧ erlang_c_probability A traffic ≤ 1 := by
  unfold erlang_c_probability
  dsimp only
  have hfacA : (0 : K) < (Nat.factorial A : K) := by exact_mod_cast Nat.factorial_pos A
  have hApos : (0 : K) < (A : K) := lt_trans h1 h2
  have hnum : (0 : K) < traffic ^ A / (Nat.factorial A : K) * ((A : K) / ((A : K) - traffic)) :=
    mul_pos (div_pos (pow_pos h1 A) hfacA) (div_pos hApos (by linarith))
  have hsum : (0 : K) ≤ ((List.range A).map (fun k => traffic ^ k / (Nat.factorial k : K))).sum := by
    apply List.sum_nonneg
    intro x hx
    obtain ⟨k, _, rfl⟩ := List.mem_map.mp hx
    have hfac : (0 : K) < (Nat.factorial k : K) := by exact_mod_cast Nat.factorial_pos k
    positivity
  constructor
  · apply div_nonneg (le_of_lt hnum)
    linarith
  · apply div_le_one_of_le₀ (by linarith) (by linarith)

/-- C3 (amended): for positive call volume and handle time, whenever some
candidate within the iteration cap satisfies the service-level condition,
`calculate_required_agents` returns the minimal integer agent count `A` with
`A ≥ floor(T) + 1` (the least integer strictly greater than the traffic
intensity `T`; this equals `ceil(T) + 1` only when `T` is an integer, and
`ceil(T)` otherwise) satisfying the condition, together with that candidate's
achieved service level. -/
theorem required_agents_minimal_above_floor {K : Type} [LinearOrderedField K] [FloorRing K]
    (e : K → K) (cv : ℤ) (aht tsl tat : K) (hcv : 0 < cv) (haht : 0 < aht)
    (hsat : ∃ j, j < 99 ∧ answers_cond e ((cv : K) * aht / 60) tsl tat aht
      (Int.toNat ⌊(cv : K) * aht / 60⌋ + 1 + j)) :
    answers_cond e ((cv : K) * aht / 60) tsl tat aht
      (calculate_required_agents e cv aht tsl tat).1 ∧
    Int.toNat ⌊(cv : K) * aht / 60⌋ + 1 ≤ (calculate_required_agents e cv aht tsl tat).1 ∧
    (∀ B, Int.toNat ⌊(cv : K) * aht / 60⌋ + 1 ≤ B →
      B < (calculate_required_agents e cv aht tsl tat).1 →
      ¬ answers_cond e ((cv : K) * aht / 60) tsl tat aht B) ∧
    (calculate_required_agents e cv aht tsl tat).2.2 =
      1 - erlang_c_probability (calculate_required_agents e cv aht tsl tat).1
            ((cv : K) * aht / 60) *
          e (-(((calculate_required_agents e cv aht tsl tat).1 : K) - (cv : K) * aht / 60) *
            tat / aht) := by
  obtain ⟨fuel, hfuel, _, heq, hA0⟩ := calculate_required_agents_eq e cv aht tsl tat hcv haht
  have hsat' : ∃ j, j < fuel ∧ answers_cond e ((cv : K) * aht / 60) tsl tat aht
      (Int.toNat ⌊(cv : K) * aht / 60⌋ + 1 + j) := by
    obtain ⟨j, hj, hcj⟩ := hsat
    exact ⟨j, by omega, hcj⟩
  obtain ⟨A, heqloop, hcA, hsA, hmin⟩ :=
    find_agents_loop_min e ((cv : K) * aht / 60) tsl tat aht fuel
      (Int.toNat ⌊(cv : K) * aht / 60⌋ + 1) none hA0 hsat'
  rw [heq]
  unfold agents_output
  rw [heqloop]
  exact ⟨hcA, hsA, hmin, rfl⟩

/-- Witness for `required_agents_minimal_above_floor`: `call_volume = 1`,
`avg_handle_time = 60` (traffic intensity `1`), over `ℚ` with the
constant-zero stand-in for `exp`, under which every candidate satisfies the
condition, so the returned count is `floor(1) + 1 = 2`. -/
theorem required_agents_minimal_above_floor_witness :
    answers_cond (fun _ => (0 : ℚ)) (((1 : ℤ) : ℚ) * 60 / 60) (4 / 5) 20 60
      (calculate_required_agents (fun _ => (0 : ℚ)) 1 60 (4 / 5) 20).1 ∧
    Int.toNat ⌊((1 : ℤ) : ℚ) * 60 / 60⌋ + 1 ≤
      (calculate_required_agents (fun _ => (0 : ℚ)) 1 60 (4 / 5) 20).1 ∧
    (∀ B, Int.toNat ⌊((1 : ℤ) : ℚ) * 60 / 60⌋ + 1 ≤ B →
      B < (calculate_required_agents (fun _ => (0 : ℚ)) 1 60 (4 / 5) 20).1 →
      ¬ answers_cond (fun _ => (0 : ℚ)) (((1 : ℤ) : ℚ) * 60 / 60) (4 / 5) 20 60 B) ∧
    (calculate_required_agents (fun _ => (0 : ℚ)) 1 60 (4 / 5) 20).2.2 =
      1 - erlang_c_probability (calculate_required_agents (fun _ => (0 : ℚ)) 1 60 (4 / 5) 20).1
            (((1 : ℤ) : ℚ) * 60 / 60) *
          (fun _ => (0 : ℚ))
            (-(((calculate_required_agents (fun _ => (0 : ℚ)) 1 60 (4 / 5) 20).1 : ℚ) -
              ((1 : ℤ) : ℚ) * 60 / 60) * 20 / 60) :=
  required_agents_minimal_above_floor (fun _ => (0 : ℚ)) 1 60 (4 / 5) 20
    (by norm_num) (by norm_num)
    ⟨0, by norm_num, by unfold answers_cond; norm_num⟩

/-- The exponential factor evaluated by the search at the concrete
counterexample input is below `1/5`. -/
lemma exp_neg_eight_thirds_lt : Real.exp (-(8 / 3)) < 1 / 5 := by
  have h2 : (5 : ℝ) < Real.exp 2 := by
    have he := Real.exp_one_gt_d9
    have hsq : Real.exp 2 = Real.exp 1 * Real.exp 1 := by
      rw [← Real.exp_add]; norm_num
    nlinarith [Real.exp_pos 1]
  have h3 : (5 : ℝ) < Real.exp (8 / 3) :=
    lt_of_lt_of_le h2 (Real.exp_le_exp.mpr (by norm_num))
  rw [Real.exp_neg]
  have h5 : (0 : ℝ) < 5 := by norm_num
  calc (Real.exp (8 / 3))⁻¹ < 5⁻¹ := by
        apply inv_strictAnti₀ h5 h3
    _ = 1 / 5 := by norm_num

/-- C3, counterexample to the claim as stated: at `call_volume = 100`,
`avg_handle_time = 5`, `target_service_level = 0.8`, `target_answer_time = 20`
(the spec's own worked example) the traffic intensity is `T = 25/3`, which is
not an integer, and the source's search starts at `ceil(T) = 9 > T` — not at
`ceil(T) + 1 = 10`.  The first candidate already meets the service level, so
the code returns `9` agents, strictly below the claimed lower bound
`ceil(T) + 1`.  Stated over the reals with the genuine exponential. -/
theorem required_agents_below_ceil_plus_one :
    (calculate_required_agents (K := ℝ) Real.exp 100 5 (4 / 5) 20).1 = 9 ∧
    (((calculate_required_agents (K := ℝ) Real.exp 100 5 (4 / 5) 20).1 : ℤ) <
      ⌈((100 : ℤ) : ℝ) * 5 / 60⌉ + 1) := by
  have hT : ((100 : ℤ) : ℝ) * 5 / 60 = 25 / 3 := by norm_num
  have hfloor : ⌊((100 : ℤ) : ℝ) * 5 / 60⌋ = 8 := by
    rw [hT, Int.floor_eq_iff]; norm_num
  have hceil : ⌈((100 : ℤ) : ℝ) * 5 / 60⌉ = 9 := by
    rw [hT, Int.ceil_eq_iff]; norm_num
  have cond9 : answers_cond Real.exp (((100 : ℤ) : ℝ) * 5 / 60) (4 / 5) 20 5 9 := by
    unfold answers_cond
    have hbounds := erlang_c_probability_mem_unit 9 (((100 : ℤ) : ℝ) * 5 / 60)
      (by rw [hT]; norm_num) (by rw [hT]; push_cast; norm_num)
    have harg : -(((9 : ℕ) : ℝ) - ((100 : ℤ) : ℝ) * 5 / 60) * 20 / 5 = -(8 / 3) := by
      rw [hT]; push_cast; norm_num
    rw [harg]
    have hexp := exp_neg_eight_thirds_lt
    have hexppos := Real.exp_pos (-(8 / 3))
    nlinarith [hbounds.1, hbounds.2]
  obtain ⟨fuel, hfuel, _, heq, hA0⟩ :=
    calculate_required_agents_eq (K := ℝ) Real.exp 100 5 (4 / 5) 20 (by norm_num) (by norm_num)
  have hA0eq : Int.toNat ⌊((100 : ℤ) : ℝ) * 5 / 60⌋ + 1 = 9 := by rw [hfloor]; rfl
  rw [hA0eq] at heq hA0
  obtain ⟨A, heqloop, hcA, hsA, hmin⟩ :=
    find_agents_loop_min Real.exp (((100 : ℤ) : ℝ) * 5 / 60) (4 / 5) 20 5 fuel 9 none hA0
      ⟨0, by omega, by simpa using cond9⟩
  have hA9 : A = 9 := by
    have h9 : ¬ 9 < A := fun h => hmin 9 (le_refl 9) h cond9
    omega
  have hres : (calculate_required_agents (K := ℝ) Real.exp 100 5 (4 / 5) 20).1 = 9 := by
    rw [heq]
    unfold agents_output
    rw [heqloop]
    exact hA9
  refine ⟨hres, ?_⟩
  rw [hres, hceil]
  norm_num

lemma error_adjust_pos (err : ℚ) : 0 < error_adjust err := by
  unfold error_adjust
  split_ifs <;> norm_num

/-- One update preserves positivity and renormalizes the total to exactly 1. -/
lemma update_weights_pos_sum (w : ComponentWeights) (errs : ComponentErrors)
    (hw : weights_pos w) :
    weights_pos (update_weights w errs) ∧ weight_total (update_weights w errs) = 1 := by
  obtain ⟨h1, h2, h3, h4⟩ := hw
  have a1 := error_adjust_pos errs.seasonal_error
  have a2 := error_adjust_pos errs.trend_error
  have a3 := error_adjust_pos errs.growth_error
  have a4 := error_adjust_pos errs.ml_error
  have p1 : 0 < w.seasonal * error_adjust errs.seasonal_error := mul_pos h1 a1
  have p2 : 0 < w.trend * error_adjust errs.trend_error := mul_pos h2 a2
  have p3 : 0 < w.growth * error_adjust errs.growth_error := mul_pos h3 a3
  have p4 : 0 < w.ml_prediction * error_adjust errs.ml_error := mul_pos h4 a4
  have ht : 0 < weight_total
      ⟨w.seasonal * error_adjust errs.seasonal_error,
       w.trend * error_adjust errs.trend_error,
       w.growth * error_adjust errs.growth_error,
       w.ml_prediction * error_adjust errs.ml_error⟩ := by
    unfold weight_total
    dsimp only
    linarith
  unfold update_weights
  dsimp only
  rw [if_pos ht]
  refine ⟨⟨div_pos p1 ht, div_pos p2 ht, div_pos p3 ht, div_pos p4 ht⟩, ?_⟩
  unfold weight_total at ht ⊢
  dsimp only at ht ⊢
  rw [div_add_div_same, div_add_div_same, div_add_div_same, div_self (ne_of_gt ht)]

lemma foldl_update_weights_inv (es : List ComponentErrors) :
    ∀ w : ComponentWeights, weights_pos w ∧ weight_total w = 1 →
      weights_pos (es.foldl update_weights w) ∧
        weight_total (es.foldl update_weights w) = 1 := by
  induction es with
  | nil => intro w h; exact h
  | cons a as ih =>
    intro w h
    simp only [List.foldl_cons]
    exact ih (update_weights w a) (update_weights_pos_sum w a h.1)

/-- C7: starting from the initial component weights
`{seasonal: 0.4, trend: 0.3, growth: 0.2, ml_prediction: 0.1}`, after every
finite sequence of `update_weights` calls with arbitrary error inputs, the
weights sum to exactly 1 (in exact arithmetic, hence within floating
tolerance) and every individual weight lies in `[0, 1]`. -/
theorem component_weights_sum_one (updates : List ComponentErrors) :
    weight_total (updates.foldl update_weights initial_model_weights) = 1 ∧
    (0 ≤ (updates.foldl update_weights initial_model_weights).seasonal ∧
      (updates.foldl update_weights initial_model_weights).seasonal ≤ 1) ∧
    (0 ≤ (updates.foldl update_weights initial_model_weights).trend ∧
      (updates.foldl update_weights initial_model_weights).trend ≤ 1) ∧
    (0 ≤ (updates.foldl update_weights initial_model_weights).growth ∧
      (updates.foldl update_weights initial_model_weights).growth ≤ 1) ∧
    (0 ≤ (updates.foldl update_weights initial_model_weights).ml_prediction ∧
      (updates.foldl update_weights initial_model_weights).ml_prediction ≤ 1) := by
  have h0 : weights_pos initial_model_weights ∧ weight_total initial_model_weights = 1 := by
    constructor
    · refine ⟨?_, ?_, ?_, ?_⟩ <;> norm_num [initial_model_weights]
    · norm_num [initial_model_weights, weight_total]
  obtain ⟨hpos, hsum⟩ := foldl_update_weights_inv updates initial_model_weights h0
  obtain ⟨p1, p2, p3, p4⟩ := hpos
  unfold weight_total at hsum
  refine ⟨by unfold weight_total; linarith, ⟨le_of_lt p1, by linarith⟩,
    ⟨le_of_lt p2, by linarith⟩, ⟨le_of_lt p3, by linarith⟩, ⟨le_of_lt p4, by linarith⟩⟩

lemma foldl_add_eq_sum {α : Type} (f : α → ℚ) :
    ∀ (l : List α) (a : ℚ), l.foldl (fun acc x => acc + f x) a = a + (l.map f).sum := by
  intro l
  induction l with
  | nil => intro a; simp
  | cons x xs ih =>
    intro a
    simp only [List.foldl_cons, List.map_cons, List.sum_cons, ih]
    ring

/-- C8: `calculate_segment_impact` agrees with the specification's reference
formula whenever total membership is positive, returns 0 when total
membership is 0, and on the spec's worked example (250/350/250/150 members,
zero adjustments, base rates 85/145/95/180 per 1000) yields
`calls_per_member = 0.12275`. -/
theorem segment_impact_matches_reference :
    (∀ (dist : List (String × ℚ)) (adj : SegmentAdjustments),
      0 < (dist.map Prod.snd).sum →
      calculate_segment_impact dist adj = segment_impact_reference dist adj) ∧
    (∀ (dist : List (String × ℚ)) (adj : SegmentAdjustments),
      (dist.map Prod.snd).sum = 0 → calculate_segment_impact dist adj = 0) ∧
    calculate_segment_impact example_distribution ⟨0, 0, 0, 0⟩ = 12275 / 100000 := by
  refine ⟨?_, ?_, ?_⟩
  · intro dist adj h
    unfold calculate_segment_impact segment_impact_reference
    dsimp only
    rw [if_neg (ne_of_gt h)]
    rw [foldl_add_eq_sum
      (fun sm => SEGMENT_CALL_RATES sm.1 * (1 + adjustment_map adj sm.1 / 100) *
        (sm.2 / (dist.map Prod.snd).sum)) dist 0]
    rw [zero_add]
  · intro dist adj h
    unfold calculate_segment_impact
    dsimp only
    rw [if_pos h]
  · simp [calculate_segment_impact, example_distribution, SEGMENT_CALL_RATES,
      adjustment_map]
    norm_num

/-- Witness for `segment_impact_matches_reference` at the spec's worked
example: its total membership is positive and the implementation agrees with
the reference formula there. -/
theorem segment_impact_matches_reference_witness :
    0 < (example_distribution.map Prod.snd).sum ∧
    calculate_segment_impact example_distribution ⟨0, 0, 0, 0⟩ =
      segment_impact_reference example_distribution ⟨0, 0, 0, 0⟩ :=
  ⟨by norm_num [example_distribution],
    segment_impact_matches_reference.1 example_distribution ⟨0, 0, 0, 0⟩
      (by norm_num [example_distribution])⟩

/-- In a sorted sample, positions further right carry values at least as
large. -/
lemma sorted_getD_mono (s : List ℚ) (hs : s.Sorted (· ≤ ·)) {i j : ℕ}
    (hij : i ≤ j) (hj : j < s.length) : s.getD i 0 ≤ s.getD j 0 := by
  have hi : i < s.length := lt_of_le_of_lt hij hj
  rw [List.getD_eq_getElem s 0 hi, List.getD_eq_getElem s 0 hj]
  have := hs.rel_get_of_le (a := ⟨i, hi⟩) (b := ⟨j, hj⟩) (by exact_mod_cast hij)
  simpa using this

/-- The interpolated value at position `h` is squeezed between the order
statistics at `floor(h)` and `min(floor(h)+1, n-1)`. -/
lemma interp_bounds (s : List ℚ) (hs : s.Sorted (· ≤ ·)) {h : ℚ}
    (h0 : 0 ≤ h) (hn : h ≤ (s.length : ℚ) - 1) :
    s.getD (Int.toNat ⌊h⌋) 0 ≤ interp s h ∧
    interp s h ≤ s.getD (min (Int.toNat ⌊h⌋ + 1) (s.length - 1)) 0 := by
  have hn1 : 1 ≤ s.length := by
    by_contra hcon
    have : s.length = 0 := by omega
    rw [this] at hn
    norm_num at hn
    linarith
  have hfl0 : (0 : ℤ) ≤ ⌊h⌋ := Int.floor_nonneg.mpr h0
  have hcast : ((Int.toNat ⌊h⌋ : ℕ) : ℚ) = ((⌊h⌋ : ℤ) : ℚ) := by
    exact_mod_cast congrArg (fun z : ℤ => (z : ℚ)) (Int.toNat_of_nonneg hfl0)
  have hfrac0 : 0 ≤ h - ((Int.toNat ⌊h⌋ : ℕ) : ℚ) := by
    rw [hcast]
    linarith [Int.floor_le h]
  have hfrac1 : h - ((Int.toNat ⌊h⌋ : ℕ) : ℚ) ≤ 1 := by
    rw [hcast]
    linarith [Int.lt_floor_add_one h]
  have hfle : ⌊h⌋ ≤ (s.length : ℤ) - 1 := by
    have h1 : ((⌊h⌋ : ℤ) : ℚ) ≤ (((s.length : ℤ) - 1 : ℤ) : ℚ) := by
      push_cast
      linarith [Int.floor_le h]
    exact_mod_cast h1
  have hile : Int.toNat ⌊h⌋ ≤ s.length - 1 := by omega
  have hminlt : min (Int.toNat ⌊h⌋ + 1) (s.length - 1) < s.length := by omega
  have hlohi : s.getD (Int.toNat ⌊h⌋) 0 ≤
      s.getD (min (Int.toNat ⌊h⌋ + 1) (s.length - 1)) 0 :=
    sorted_getD_mono s hs (by omega) hminlt
  unfold interp
  constructor
  · nlinarith [mul_nonneg hfrac0 (sub_nonneg.mpr hlohi)]
  · nlinarith [mul_nonneg (sub_nonneg.mpr hfrac1) (sub_nonneg.mpr hlohi)]

/-- Interpolation over a sorted sample is monotone in the position. -/
lemma interp_mono (s : List ℚ) (hs : s.Sorted (· ≤ ·)) {a b : ℚ}
    (h0 : 0 ≤ a) (hab : a ≤ b) (hb : b ≤ (s.length : ℚ) - 1) :
    interp s a ≤ interp s b := by
  have h0b : 0 ≤ b := le_trans h0 hab
  have ha' : a ≤ (s.length : ℚ) - 1 := le_trans hab hb
  have hflab : ⌊a⌋ ≤ ⌊b⌋ := Int.floor_le_floor hab
  have hfa0 : (0 : ℤ) ≤ ⌊a⌋ := Int.floor_nonneg.mpr h0
  have hfb0 : (0 : ℤ) ≤ ⌊b⌋ := Int.floor_nonneg.mpr h0b
  have hn1 : 1 ≤ s.length := by
    by_contra hcon
    have : s.length = 0 := by omega
    rw [this] at hb
    norm_num at hb
    linarith
  have hfble : ⌊b⌋ ≤ (s.length : ℤ) - 1 := by
    have h1 : ((⌊b⌋ : ℤ) : ℚ) ≤ (((s.length : ℤ) - 1 : ℤ) : ℚ) := by
      push_cast
      linarith [Int.floor_le b]
    exact_mod_cast h1
  rcases eq_or_lt_of_le hflab with heq | hlt
  · -- same interpolation cell: the slope is nonnegative
    have hfale : ⌊a⌋ ≤ (s.length : ℤ) - 1 := by omega
    have hminlt : min (Int.toNat ⌊a⌋ + 1) (s.length - 1) < s.length := by omega
    have hlohi : s.getD (Int.toNat ⌊a⌋) 0 ≤
        s.getD (min (Int.toNat ⌊a⌋ + 1) (s.length - 1)) 0 :=
      sorted_getD_mono s hs (by omega) hminlt
    unfold interp
    rw [← heq]
    have hstep : (a - ((Int.toNat ⌊a⌋ : ℕ) : ℚ)) *
          (s.getD (min (Int.toNat ⌊a⌋ + 1) (s.length - 1)) 0 - s.getD (Int.toNat ⌊a⌋) 0) ≤
        (b - ((Int.toNat ⌊a⌋ : ℕ) : ℚ)) *
          (s.getD (min (Int.toNat ⌊a⌋ + 1) (s.length - 1)) 0 - s.getD (Int.toNat ⌊a⌋) 0) :=
      mul_le_mul_of_nonneg_right (by linarith) (sub_nonneg.mpr hlohi)
    linarith
  · -- the cells are distinct: pass through the shared order statistics
    have hub := (interp_bounds s hs h0 ha').2
    have hlb := (interp_bounds s hs h0b hb).1
    have hmid : s.getD (min (Int.toNat ⌊a⌋ + 1) (s.length - 1)) 0 ≤
        s.getD (Int.toNat ⌊b⌋) 0 := by
      apply sorted_getD_mono s hs (by omega) (by omega)
    linarith

/-- numpy's percentile is monotone in the requested percentage: all five
bands are read off the same sorted sample. -/
lemma percentile_mono (xs : List ℚ) (hne : xs ≠ []) {q1 q2 : ℚ}
    (h0 : 0 ≤ q1) (h12 : q1 ≤ q2) (h100 : q2 ≤ 100) :
    percentile xs q1 ≤ percentile xs q2 := by
  unfold percentile
  have hlen : (xs.insertionSort (· ≤ ·)).length = xs.length :=
    List.length_insertionSort _ _
  have hne' : ¬ (xs.insertionSort (· ≤ ·)).length = 0 := by
    rw [hlen]
    simpa [List.length_eq_zero] using hne
  rw [if_neg hne', if_neg hne']
  have hn1 : 1 ≤ (xs.insertionSort (· ≤ ·)).length := by omega
  have hnn : (0 : ℚ) ≤ ((xs.insertionSort (· ≤ ·)).length : ℚ) - 1 := by
    have : (1 : ℚ) ≤ ((xs.insertionSort (· ≤ ·)).length : ℚ) := by exact_mod_cast hn1
    linarith
  apply interp_mono _ (List.sorted_insertionSort _ _)
  · positivity
  · apply div_le_div_of_nonneg_right ?_ (by norm_num)
    exact mul_le_mul_of_nonneg_left h12 hnn
  · calc (((xs.insertionSort (· ≤ ·)).length : ℚ) - 1) * q2 / 100 ≤
        (((xs.insertionSort (· ≤ ·)).length : ℚ) - 1) * 100 / 100 := by
          apply div_le_div_of_nonneg_right ?_ (by norm_num)
          exact mul_le_mul_of_nonneg_left h100 hnn
    _ = ((xs.insertionSort (· ≤ ·)).length : ℚ) - 1 := by ring

lemma range_map_getD (f : ℕ → ℚ) {n j : ℕ} (hj : j < n) :
    ((List.range n).map f).getD j 0 = f j := by
  rw [List.getD_eq_getElem _ 0 (by simpa using hj)]
  simp

lemma metric_bands_ordered (values : List (List ℤ)) (months : ℕ)
    (hv : values ≠ []) {j : ℕ} (hj : j < months) :
    band_ordered (metric_bands values months) j := by
  have hcol : month_column values j ≠ [] := by
    simp only [month_column, ne_eq, List.map_eq_nil_iff]
    exact hv
  unfold band_ordered metric_bands
  dsimp only
  rw [range_map_getD _ hj, range_map_getD _ hj, range_map_getD _ hj,
    range_map_getD _ hj, range_map_getD _ hj]
  exact ⟨percentile_mono _ hcol (by norm_num) (by norm_num) (by norm_num),
    percentile_mono _ hcol (by norm_num) (by norm_num) (by norm_num),
    percentile_mono _ hcol (by norm_num) (by norm_num) (by norm_num),
    percentile_mono _ hcol (by norm_num) (by norm_num) (by norm_num)⟩

/-- C9: for every base scenario, iteration count at least 1 and noise stream,
the percentile bands of `run_forecast_simulation` satisfy
`p10 <= p25 <= median <= p75 <= p90` at every forecast month for each of the
three metrics, because all five percentiles are read off the same per-month
sample. -/
theorem simulation_percentile_bands_ordered (base : MCScenario) (iterations : ℕ)
    (noise : ℕ → ℚ × ℚ × ℚ) (hit : 0 < iterations) {j : ℕ}
    (hj : j < base.forecast_months) :
    band_ordered ((run_forecast_simulation base iterations noise).predicted_members) j ∧
    band_ordered ((run_forecast_simulation base iterations noise).predicted_calls) j ∧
    band_ordered ((run_forecast_simulation base iterations noise).required_staff) j := by
  unfold run_forecast_simulation
  rw [if_neg (by omega)]
  dsimp only
  have hiter : ((List.range iterations).map
      (fun i => single_iteration (modify_scenario base (noise i)))) ≠ [] := by
    simp only [ne_eq, List.map_eq_nil_iff, List.range_eq_nil]
    omega
  refine ⟨metric_bands_ordered _ _ ?_ hj, metric_bands_ordered _ _ ?_ hj,
    metric_bands_ordered _ _ ?_ hj⟩ <;>
    simpa only [ne_eq, List.map_eq_nil_iff] using hiter

/-- Witness for `simulation_percentile_bands_ordered` at a concrete scenario
(one forecast month, one iteration, unit noise). -/
theorem simulation_percentile_bands_ordered_witness :
    band_ordered ((run_forecast_simulation ⟨1, 10000, 5 / 2, 3 / 20, 31 / 5, 1⟩ 1
      (fun _ => (0, 1, 1))).predicted_members) 0 ∧
    band_ordered ((run_forecast_simulation ⟨1, 10000, 5 / 2, 3 / 20, 31 / 5, 1⟩ 1
      (fun _ => (0, 1, 1))).predicted_calls) 0 ∧
    band_ordered ((run_forecast_simulation ⟨1, 10000, 5 / 2, 3 / 20, 31 / 5, 1⟩ 1
      (fun _ => (0, 1, 1))).required_staff) 0 :=
  simulation_percentile_bands_ordered ⟨1, 10000, 5 / 2, 3 / 20, 31 / 5, 1⟩ 1
    (fun _ => (0, 1, 1)) (by norm_num) (by norm_num)

/-- C6: the accuracy function is NOT total on zero-actual-sum input: at
`actual = [0, 0]`, `predicted = [1, 1]` the `wmape` denominator
`np.sum(actual)` is zero while its numerator is 2, so the float code yields
`inf` (modelled by `none`) instead of the neutral value the spec mandates.
Empty input, by contrast, is handled and returns all zeros. -/
theorem accuracy_metrics_zero_actual_sum :
    calculate_accuracy_metrics [0, 0] [1, 1] = none ∧
    calculate_accuracy_metrics [] [] = some ⟨0, 0, 0, 0, 0, 0⟩ := by
  constructor
  · unfold calculate_accuracy_metrics
    rw [if_neg (by norm_num)]
    dsimp only
    rw [if_pos]
    left
    norm_num
  · rfl

lemma apply_confidence_intervals_from_length (ci : SimBands) :
    ∀ (k : ℕ) (rs : List ForecastResultM),
      (apply_confidence_intervals_from ci k rs).length = rs.length := by
  intro k rs
  induction rs generalizing k with
  | nil => rfl
  | cons r rest ih =>
    rw [apply_confidence_intervals_from]
    simp only [List.length_cons, ih]

lemma apply_confidence_intervals_from_getD (ci : SimBands) (d : ForecastResultM) :
    ∀ (rs : List ForecastResultM) (k i : ℕ), i < rs.length →
      (apply_confidence_intervals_from ci k rs).getD i d =
        if k + i < ci.predicted_members.p25.length then
          { rs.getD i d with
            members_confidence := some (confidence_entry ci.predicted_members (k + i))
            calls_confidence := some (confidence_entry ci.predicted_calls (k + i))
            staff_confidence := some (confidence_entry ci.required_staff (k + i)) }
        else rs.getD i d := by
  intro rs
  induction rs with
  | nil => intro k i hi; simp at hi
  | cons r rest ih =>
    intro k i hi
    rw [apply_confidence_intervals_from]
    match i with
    | 0 =>
      simp only [List.getD_cons_zero, Nat.add_zero]
    | i + 1 =>
      simp only [List.getD_cons_succ]
      have := ih (k + 1) i (by simpa using Nat.lt_of_succ_lt_succ hi)
      rw [this]
      have harith : k + 1 + i = k + (i + 1) := by omega
      rw [harith]

/-- C10: the confidence dictionaries merged into a forecast result contain
exactly the keys `p10`, `p25`, `p75`, `p90` — never the simulator's `median`
— and a result whose month index has no simulated band is left entirely
unchanged (in particular its `None` confidence fields stay `None`). -/
theorem confidence_intervals_keys_exact (rs : List ForecastResultM) (ci : SimBands)
    (d : ForecastResultM) (i : ℕ) (hi : i < rs.length) :
    (apply_confidence_intervals rs ci).length = rs.length ∧
    (i < ci.predicted_members.p25.length →
      conf_keys ((apply_confidence_intervals rs ci).getD i d).members_confidence =
          some ["p10", "p25", "p75", "p90"] ∧
      conf_keys ((apply_confidence_intervals rs ci).getD i d).calls_confidence =
          some ["p10", "p25", "p75", "p90"] ∧
      conf_keys ((apply_confidence_intervals rs ci).getD i d).staff_confidence =
          some ["p10", "p25", "p75", "p90"]) ∧
    (ci.predicted_members.p25.length ≤ i →
      (apply_confidence_intervals rs ci).getD i d = rs.getD i d) := by
  unfold apply_confidence_intervals
  have hgetD := apply_confidence_intervals_from_getD ci d rs 0 i hi
  rw [Nat.zero_add] at hgetD
  refine ⟨apply_confidence_intervals_from_length ci 0 rs, ?_, ?_⟩
  · intro hlt
    rw [hgetD, if_pos hlt]
    exact ⟨rfl, rfl, rfl⟩
  · intro hge
    rw [hgetD, if_neg (by omega)]

/-- Witness for `confidence_intervals_keys_exact`: two blank results against
one simulated month of bands; the first result receives exactly the four
keys. -/
theorem confidence_intervals_keys_exact_witness :
    (apply_confidence_intervals [blank_result, blank_result] sample_bands).length = 2 ∧
    ((0 : ℕ) < sample_bands.predicted_members.p25.length →
      conf_keys ((apply_confidence_intervals [blank_result, blank_result]
          sample_bands).getD 0 blank_result).members_confidence =
          some ["p10", "p25", "p75", "p90"] ∧
      conf_keys ((apply_confidence_intervals [blank_result, blank_result]
          sample_bands).getD 0 blank_result).calls_confidence =
          some ["p10", "p25", "p75", "p90"] ∧
      conf_keys ((apply_confidence_intervals [blank_result, blank_result]
          sample_bands).getD 0 blank_result).staff_confidence =
          some ["p10", "p25", "p75", "p90"]) ∧
    (sample_bands.predicted_members.p25.length ≤ 0 →
      (apply_confidence_intervals [blank_result, blank_result]
          sample_bands).getD 0 blank_result =
        [blank_result, blank_result].getD 0 blank_result) := by
  have h := confidence_intervals_keys_exact [blank_result, blank_result] sample_bands
    blank_result 0 (by norm_num)
  simpa using h

/-- C1 (amended): the fingerprint input is built from exactly eight scenario
fields — name, base month, forecast months, growth rate, segment adjustments,
call volume factors, staffing parameters and Monte Carlo iterations — so any
two scenarios agreeing on those eight fields receive the same fingerprint,
whatever their `description`, `regulatory_changes` and `confidence_level`. -/
theorem scenario_hash_depends_on_eight_fields (s1 s2 : ForecastScenarioCreate)
    (h : s1.name = s2.name ∧ s1.base_month = s2.base_month ∧
      s1.forecast_months = s2.forecast_months ∧
      s1.member_growth_rate = s2.member_growth_rate ∧
      s1.segment_adjustments = s2.segment_adjustments ∧
      s1.call_volume_factors = s2.call_volume_factors ∧
      s1.staffing_parameters = s2.staffing_parameters ∧
      s1.monte_carlo_iterations = s2.monte_carlo_iterations) :
    scenario_hash_input s1 = scenario_hash_input s2 := by
  obtain ⟨h1, h2, h3, h4, h5, h6, h7, h8⟩ := h
  unfold scenario_hash_input
  rw [h1, h2, h3, h4, h5, h6, h7, h8]

/-- C1, counterexample to the claim as stated: two distinct scenarios that
differ (only) in `confidence_level` — a `ScenarioParameters` field — produce
the identical fingerprint input, so differing scenarios do NOT always yield
different fingerprints. -/
theorem scenario_hash_ignores_confidence_level :
    scenarioA ≠ scenarioB ∧
    scenario_hash_input scenarioA = scenario_hash_input scenarioB := by
  constructor
  · intro h
    have hc := congrArg ForecastScenarioCreate.confidence_level h
    norm_num [scenarioA, scenarioB] at hc
  · rfl

/-- Witness for `scenario_hash_depends_on_eight_fields`: the two concrete
scenarios above agree on the eight hashed fields, hence share a fingerprint
input. -/
theorem scenario_hash_depends_on_eight_fields_witness :
    scenario_hash_input scenarioA = scenario_hash_input scenarioB :=
  scenario_hash_depends_on_eight_fields scenarioA scenarioB
    ⟨rfl, rfl, rfl, rfl, rfl, rfl, rfl, rfl⟩

lemma get_forecast_result_eq_none (h : String) : get_forecast_result h = none := rfl

/-- Merging confidence intervals touches only the confidence fields: the
point projection of every result is unchanged. -/
lemma point_part_apply_confidence_from (ci : SimBands) :
    ∀ (k : ℕ) (rs : List ForecastResultM),
      (apply_confidence_intervals_from ci k rs).map point_part = rs.map point_part := by
  intro k rs
  induction rs generalizing k with
  | nil => rfl
  | cons r rest ih =>
    rw [apply_confidence_intervals_from]
    simp only [List.map_cons, ih]
    congr 1
    split
    · rfl
    · rfl

/-- C5 (amended): with the cache backend disabled (`REDIS_AVAILABLE = False`)
every invocation of `generate_forecast` recomputes; the per-month point
forecasts (month label, predicted members, predicted calls, calls-per-member,
staffing figures, utilization and service level) are a deterministic function
of the scenario and the historical data — two invocations agree on all of
them no matter which random draws the Monte Carlo loop makes. -/
theorem generate_forecast_points_deterministic (e : ℚ → ℚ)
    (fit : List HistoricalRow → ℕ → ℚ) (scenario : ForecastScenarioCreate)
    (historical : List HistoricalRow) (noise1 noise2 : ℕ → ℚ × ℚ × ℚ) :
    (generate_forecast_results e fit scenario historical noise1).map point_part =
      (generate_forecast_results e fit scenario historical noise2).map point_part := by
  unfold generate_forecast_results
  rw [get_forecast_result_eq_none]
  by_cases hmc : 0 < scenario.monte_carlo_iterations
  · simp only [if_pos hmc]
    unfold apply_confidence_intervals
    rw [point_part_apply_confidence_from, point_part_apply_confidence_from]
  · simp only [if_neg hmc]

lemma pyInt_intCast (z : ℤ) : pyInt ((z : ℤ) : ℚ) = z := by
  unfold pyInt
  split
  · exact Int.floor_intCast z
  · rw [← Int.cast_neg, Int.floor_intCast]
    omega

/-- Every percentile of a constant sample is that constant. -/
lemma percentile_replicate (n : ℕ) (x q : ℚ) (hn : n ≠ 0) (h0 : 0 ≤ q)
    (h100 : q ≤ 100) : percentile (List.replicate n x) q = x := by
  have hsort : (List.replicate n x).insertionSort (· ≤ ·) = List.replicate n x := by
    have hperm := List.perm_insertionSort (· ≤ ·) (List.replicate n x)
    exact (List.replicate_perm.mp hperm.symm).symm
  unfold percentile
  rw [hsort]
  simp only [List.length_replicate]
  rw [if_neg hn]
  have hn1 : 1 ≤ n := by omega
  have hnn : (0 : ℚ) ≤ (n : ℚ) - 1 := by
    have : (1 : ℚ) ≤ (n : ℚ) := by exact_mod_cast hn1
    linarith
  have hh0 : (0 : ℚ) ≤ ((n : ℚ) - 1) * q / 100 := by positivity
  have hhn : ((n : ℚ) - 1) * q / 100 ≤ (n : ℚ) - 1 := by
    calc ((n : ℚ) - 1) * q / 100 ≤ ((n : ℚ) - 1) * 100 / 100 := by
          apply div_le_div_of_nonneg_right ?_ (by norm_num)
          exact mul_le_mul_of_nonneg_left h100 hnn
      _ = (n : ℚ) - 1 := by ring
  have hfl0 : (0 : ℤ) ≤ ⌊((n : ℚ) - 1) * q / 100⌋ := Int.floor_nonneg.mpr hh0
  have hfle : ⌊((n : ℚ) - 1) * q / 100⌋ ≤ (n : ℤ) - 1 := by
    have h1 : ((⌊((n : ℚ) - 1) * q / 100⌋ : ℤ) : ℚ) ≤ (((n : ℤ) - 1 : ℤ) : ℚ) := by
      push_cast
      linarith [Int.floor_le (((n : ℚ) - 1) * q / 100)]
    exact_mod_cast h1
  have hilt : Int.toNat ⌊((n : ℚ) - 1) * q / 100⌋ < n := by omega
  have hminlt : min (Int.toNat ⌊((n : ℚ) - 1) * q / 100⌋ + 1) (n - 1) < n := by omega
  unfold interp
  simp only [List.length_replicate]
  rw [List.getD_eq_getElem _ 0 (by simpa using hilt),
    List.getD_eq_getElem _ 0 (by simpa using hminlt)]
  simp only [List.getElem_replicate]
  ring

/-- Evaluation of the members-confidence column of a constant-noise run of
the engine on `scenarioC` and `history1`. -/
lemma members_conf_eval (g : ℚ) (v : ℤ)
    (hv : pyInt (10000 * (1 + (5 / 2 + g) / 100)) = v) :
    (generate_forecast_results exp0 fit0 scenarioC history1 (fun _ => (g, 1, 1))).map
      (fun r => r.members_confidence) =
    [some [("p10", v), ("p25", v), ("p75", v), ("p90", v)]] := by
  unfold generate_forecast_results
  rw [get_forecast_result_eq_none]
  dsimp only
  have hmc : (0 : ℕ) < scenarioC.monte_carlo_iterations := by decide
  rw [if_pos hmc]
  have hfm : scenarioC.forecast_months = 1 := rfl
  rw [hfm]
  simp only [show List.range 1 = [0] from rfl, List.map_singleton]
  have hbm : calculate_base_metrics history1 = ⟨10000, 1500 / max 10000 1, 6, 1 / 40⟩ := rfl
  rw [hbm]
  -- evaluate the single iteration's member trajectory
  have hitm : (single_iteration (modify_scenario
      ⟨1, 10000, 5 / 2, 1500 / max 10000 1, 31 / 5, 1⟩ (g, 1, 1))).predicted_members
      = [v] := by
    unfold single_iteration modify_scenario iteration_month
    dsimp only
    simp only [show List.range 1 = [0] from rfl, List.map_singleton]
    simp only [Nat.zero_add, pow_one, hv]
  -- evaluate the Monte Carlo member bands
  have hsim : (run_monte_carlo scenarioC ⟨10000, 1500 / max 10000 1, 6, 1 / 40⟩
      (fun _ => (g, 1, 1))).predicted_members =
      ⟨[((v : ℤ) : ℚ)], [((v : ℤ) : ℚ)], [((v : ℤ) : ℚ)], [((v : ℤ) : ℚ)], [((v : ℤ) : ℚ)]⟩ := by
    unfold run_monte_carlo run_forecast_simulation
    rw [if_neg (by decide : ¬ scenarioC.monte_carlo_iterations = 0)]
    dsimp only
    have hiters : (List.range scenarioC.monte_carlo_iterations).map
        (fun i => single_iteration (modify_scenario
          ⟨scenarioC.forecast_months, (10000 : ℚ), scenarioC.member_growth_rate,
            1500 / max 10000 1, scenarioC.staffing_parameters.avg_handle_time,
            scenarioC.call_volume_factors.seasonal_factor⟩ ((fun _ => (g, 1, 1)) i))) =
        List.replicate 100 (single_iteration (modify_scenario
          ⟨1, 10000, 5 / 2, 1500 / max 10000 1, 31 / 5, 1⟩ (g, 1, 1))) := by
      simp [scenarioC, scenarioA]
    rw [hiters]
    rw [List.map_replicate, hitm, hfm]
    unfold metric_bands
    simp only [show List.range 1 = [0] from rfl, List.map_singleton]
    have hcol : month_column (List.replicate 100 [v]) 0 = List.replicate 100 ((v : ℤ) : ℚ) := by
      unfold month_column
      rw [List.map_replicate]
      norm_num
    rw [hcol, percentile_replicate 100 _ 10 (by norm_num) (by norm_num) (by norm_num),
      percentile_replicate 100 _ 25 (by norm_num) (by norm_num) (by norm_num),
      percentile_replicate 100 _ 50 (by norm_num) (by norm_num) (by norm_num),
      percentile_replicate 100 _ 75 (by norm_num) (by norm_num) (by norm_num),
      percentile_replicate 100 _ 90 (by norm_num) (by norm_num) (by norm_num)]
  have hlen : 0 < (run_monte_carlo scenarioC ⟨10000, 1500 / max 10000 1, 6, 1 / 40⟩
      (fun _ => (g, 1, 1))).predicted_members.p25.length := by
    rw [hsim]
    norm_num
  simp only [apply_confidence_intervals, apply_confidence_intervals_from]
  rw [if_pos hlen]
  simp only [List.map_cons, List.map_nil]
  unfold confidence_entry
  rw [hsim]
  simp only [List.getD_cons_zero]
  rw [pyInt_intCast]

/-- C5, counterexample to the claim as stated: with the cache disabled
(`REDIS_AVAILABLE = False`) the second invocation recomputes rather than
returning the cached run, and the Monte Carlo confidence bands depend on the
unseeded random draws: two invocations of `generate_forecast` on the
identical scenario (`scenarioC`, fingerprint unchanged) and identical history
`history1`, whose normal draws happen to differ, return different
members-confidence bands (10250 versus 20000 for every percentile), so the
two `ForecastRun`s are not identical. -/
theorem generate_forecast_bands_depend_on_draws :
    (generate_forecast_results exp0 fit0 scenarioC history1 noise_run1).map
        (fun r => r.members_confidence) ≠
      (generate_forecast_results exp0 fit0 scenarioC history1 noise_run2).map
        (fun r => r.members_confidence) := by
  have h1 := members_conf_eval 0 10250 (by norm_num [pyInt])
  have h2 := members_conf_eval (195 / 2) 20000 (by norm_num [pyInt])
  unfold noise_run1 noise_run2
  rw [h1, h2]
  decide
